import Mathlib

/-!
Verification of the web-keyboard connection hub (Go sources: server/websocket.go,
input/simulator.go, static/script.js) against its natural-language specification.

The Go code is shallowly embedded: the hub's event loop (`WebSocketServer.Run`),
the pumps (`readPump`, `writePump`), `Shutdown`, the key simulator
(`keySimulator.PressKey`), and the browser reconnection logic
(`NumpadKeyboard`) become pure Lean functions over explicit state.
Connections are identified by `Nat` (reference identity of the Go
`*Connection` pointers); a buffered Go channel of capacity 256 becomes a
`List` of pending messages plus a closed flag; `time.Sleep` becomes a
reported duration; blocking on a full channel is reported as a `blocked`
flag (the Go goroutine would stall there until a consumer frees space).
-/

namespace WebKeyboard

/-- A server→client JSON payload, as marshalled in websocket.go:
`status`/optional `reason` envelopes, `error` envelopes, or opaque bytes
handed to the broadcast channel. -/
inductive Msg where
  | status (st : String) (reason : Option String)
  | err (e : String)
  | raw (b : String)
deriving DecidableEq

/-- Capacity of each connection's `send` channel (`make(chan []byte, 256)`). -/
def sendCap : Nat := 256

/-- The welcome payload marshalled in the register case of `Run`. -/
def connectedMsg : Msg := Msg.status "connected" none

/-- The eviction payload marshalled in the register case of `Run`. -/
def evictMsg : Msg := Msg.status "disconnected" (some "Another device connected")

/-- The payload marshalled in `readPump` when `PressKey` fails. -/
def keyErrMsg (k : String) : Msg := Msg.err ("Failed to press key: " ++ k)

/-- State of one Go `Connection` object: the contents of its `send` channel,
whether `close(send)` has run (and how many times — Go would panic on the
second), and whether `conn.Close()` has been called. -/
structure Conn where
  queue : List Msg
  queueClosed : Bool
  closeCount : Nat
  transportClosed : Bool
deriving DecidableEq

/-- A freshly upgraded connection (`handleWebSocket`): empty open channel,
transport open. -/
def Conn.fresh : Conn := ⟨[], false, 0, false⟩

/-- `close(connection.send)`. -/
def Conn.closeQueue (c : Conn) : Conn :=
  { c with queueClosed := true, closeCount := c.closeCount + 1 }

/-- `connection.conn.Close()`. -/
def Conn.closeTransport (c : Conn) : Conn :=
  { c with transportClosed := true }

/-- Non-blocking send (`select { case ch <- m: default: }`) on a buffered
channel: succeeds exactly when the buffer has room. Returns the updated
connection and whether the payload was accepted. -/
def trySend (c : Conn) (m : Msg) : Conn × Bool :=
  if c.queue.length < sendCap then ({ c with queue := c.queue ++ [m] }, true)
  else (c, false)

/-- The hub's state: the keys of the `s.connections` map (as a list standing
in for the unordered map; claims proved below do not depend on the order),
plus the state of every `Connection` object by identity. -/
structure HubState where
  members : List Nat
  store : Nat → Conn

/-- The hub before any event: `make(map[*Connection]bool)`. -/
def initialState : HubState := ⟨[], fun _ => Conn.fresh⟩

/-- `getExistingConnection`: the first key the `range` over the map yields.
Go's map iteration order is unspecified; the model fixes the first list
element, one admissible order. -/
def getExistingConnection (s : HubState) : Option Nat := s.members.head?

/-- Result of processing one register event: the new hub state and how long
the handler slept (`time.Sleep(100 * time.Millisecond)` runs only in the
branch where the eviction payload was accepted by the channel). -/
structure RegResult where
  state : HubState
  sleptMs : Nat

/-- The register case of `Run` (websocket.go lines 153-178): if the map is
non-empty, evict one existing connection — best-effort non-blocking eviction
payload, a 100ms grace sleep only when the payload was accepted, then
`conn.Close()` — and in every case add the new connection to the map and
deliver the welcome payload (a blocking send into its fresh, empty channel,
which therefore always succeeds).  Note: the evicted connection is NOT
removed from the map here. -/
def hubRegister (s : HubState) (c : Nat) : RegResult :=
  let p :=
    if 1 ≤ s.members.length then
      match getExistingConnection s with
      | some e =>
        let q := trySend (s.store e) evictMsg
        ({ s with store := Function.update s.store e q.1.closeTransport },
          if q.2 then 100 else 0)
      | none => (s, 0)
    else (s, 0)
  ⟨{ p.1 with
      members := p.1.members ++ [c],
      store := Function.update p.1.store c { Conn.fresh with queue := [connectedMsg] } },
    p.2⟩

/-- The unregister case of `Run` (websocket.go lines 180-187): remove and
close the channel only when the connection is still a member of the map. -/
def hubUnregister (s : HubState) (c : Nat) : HubState :=
  if c ∈ s.members then
    { members := s.members.filter (fun x => x != c),
      store := Function.update s.store c (s.store c).closeQueue }
  else s

/-- One iteration of the broadcast loop body of `Run` (websocket.go lines
191-198) for the connection `c`: non-blocking send; on a full channel close
it and delete the connection from the map. -/
def broadcastOne (m : Msg) (s : HubState) (c : Nat) : HubState :=
  if (s.store c).queue.length < sendCap then
    { s with store := Function.update s.store c { s.store c with queue := (s.store c).queue ++ [m] } }
  else
    { members := s.members.filter (fun x => x != c),
      store := Function.update s.store c (s.store c).closeQueue }

/-- The broadcast case of `Run`: iterate the loop body over every member. -/
def hubBroadcast (s : HubState) (m : Msg) : HubState :=
  s.members.foldl (broadcastOne m) s

/-- One hub event, as read from the three channels `Run` selects over. -/
inductive HubEvent where
  | register (c : Nat)
  | unregister (c : Nat)
  | broadcast (m : Msg)
deriving DecidableEq

/-- One round of `Run`'s select loop. -/
def hubStep (s : HubState) (e : HubEvent) : HubState :=
  match e with
  | HubEvent.register c => (hubRegister s c).state
  | HubEvent.unregister c => hubUnregister s c
  | HubEvent.broadcast m => hubBroadcast s m

/-- The hub after a sequence of events. -/
def hubRun (es : List HubEvent) (s : HubState) : HubState := es.foldl hubStep s

/-- One iteration of the loop body of `Shutdown` (websocket.go lines 217-221)
for the connection `c`: `close(connection.send)`, `connection.conn.Close()`,
delete from the map. -/
def shutdownOne (s : HubState) (c : Nat) : HubState :=
  { members := s.members.filter (fun x => x != c),
    store := Function.update s.store c (s.store c).closeQueue.closeTransport }

/-- `WebSocketServer.Shutdown`: iterate the loop body over every member. -/
def hubShutdown (s : HubState) : HubState :=
  s.members.foldl shutdownOne s

/-- The reachable-state invariant the hub maintains: every connection still
in the map has an open `send` channel that has never been closed (closing
always happens together with removal from the map, and a register installs a
fresh channel). -/
def hubInvariant (s : HubState) : Prop :=
  ∀ c ∈ s.members, (s.store c).queueClosed = false ∧ (s.store c).closeCount = 0

/-! ## Read pump (websocket.go lines 82-119)

An inbound websocket frame either fails `json.Unmarshal` into `KeyMessage`
or decodes to a `key`/`type` pair; the advisory `timestamp` is not part of
the Go struct and is discarded by decoding. -/

/-- One inbound frame, after the decode attempt. -/
inductive Frame where
  | malformed
  | decoded (key ty : String)
deriving DecidableEq

/-- Observable per-connection state of the read pump: the connection's
outbound channel contents and the trace of `PressKey` invocations made so
far (each entry is the argument of one call). -/
structure PumpState where
  queue : List Msg
  presses : List String
deriving DecidableEq

/-- Result of handling one frame: the new state, and whether the pump is
stalled in a blocking channel send (`connection.send <- errorMsg` on a full
buffer — the Go goroutine waits there and processes no further frame until
a consumer frees space). -/
structure StepOut where
  state : PumpState
  blocked : Bool
deriving DecidableEq

/-- The body of `readPump`'s loop for one successfully read frame, with
`hasSink` standing for `s.input != nil` and `sink k` for
`s.input.PressKey(k) == nil`: malformed JSON is logged and skipped; a
decoded message of type "key" invokes the sink; on sink failure the error
payload is sent to the connection's channel with a plain blocking send. -/
def readPumpStep (hasSink : Bool) (sink : String → Bool) (st : PumpState)
    (f : Frame) : StepOut :=
  match f with
  | Frame.malformed => ⟨st, false⟩
  | Frame.decoded k ty =>
    if hasSink = true ∧ ty = "key" then
      if sink k then ⟨{ st with presses := st.presses ++ [k] }, false⟩
      else if st.queue.length < sendCap then
        ⟨⟨st.queue ++ [keyErrMsg k], st.presses ++ [k]⟩, false⟩
      else ⟨{ st with presses := st.presses ++ [k] }, true⟩
    else ⟨st, false⟩

/-- The read pump over a list of successfully read frames; `none` means the
pump stalled in the blocking error send and did not reach the remaining
frames. -/
def readPumpRun (hasSink : Bool) (sink : String → Bool) :
    PumpState → List Frame → Option PumpState
  | st, [] => some st
  | st, f :: fs =>
    let o := readPumpStep hasSink sink st f
    if o.blocked then none else readPumpRun hasSink sink o.state fs

/-- The step the specification prescribes for the same frame, differing from
`readPumpStep` only in the sink-failure branch: there the error payload is
to be enqueued non-blockingly and dropped when the channel is full, the pump
continuing either way. -/
def readPumpStepSpec (hasSink : Bool) (sink : String → Bool) (st : PumpState)
    (f : Frame) : StepOut :=
  match f with
  | Frame.malformed => ⟨st, false⟩
  | Frame.decoded k ty =>
    if hasSink = true ∧ ty = "key" then
      if sink k then ⟨{ st with presses := st.presses ++ [k] }, false⟩
      else if st.queue.length < sendCap then
        ⟨⟨st.queue ++ [keyErrMsg k], st.presses ++ [k]⟩, false⟩
      else ⟨{ st with presses := st.presses ++ [k] }, false⟩
    else ⟨st, false⟩

/-! ## Write pump (websocket.go lines 121-148) -/

/-- Receiving from a buffered channel (`message, ok := <-connection.send`):
a pending item is delivered first; an empty closed channel yields the
closed indication (`ok = false`, modelled `some (none, [])`); an empty open
channel blocks (`none`). -/
def chanRecv (q : List Msg) (closed : Bool) : Option (Option Msg × List Msg) :=
  match q with
  | m :: rest => some (some m, rest)
  | [] => if closed then some (none, ([] : List Msg)) else none

/-- Whether the write pump keeps looping after one receive, given whether
the transport write succeeds: a delivered item is written (terminate on
write error); the closed indication makes the pump write a close frame and
return. -/
inductive PumpOutcome where
  | keepRunning
  | terminated
deriving DecidableEq

/-- The `case message, ok := <-connection.send` arm of `writePump`. -/
def writePumpOnRecv (writeOk : Bool) : Option Msg → PumpOutcome
  | some _ => if writeOk then PumpOutcome.keepRunning else PumpOutcome.terminated
  | none => PumpOutcome.terminated

/-- `connection.conn.ReadMessage()` as seen by `readPump`: once the
transport has been closed the read fails (`none`), and the pump leaves its
loop, deferring the unregister submission; otherwise the next frame is
delivered. -/
def readMessage (transportClosed : Bool) (f : Frame) : Option Frame :=
  if transportClosed then none else some f

/-! ## Key simulator (input/simulator.go) -/

/-- The literal key table of `pressKeyWithRobotGo`. -/
def keyMap : List (String × String) :=
  [("0", "kp_0"), ("1", "kp_1"), ("2", "kp_2"), ("3", "kp_3"), ("4", "kp_4"),
   ("5", "kp_5"), ("6", "kp_6"), ("7", "kp_7"), ("8", "kp_8"), ("9", "kp_9"),
   ("*", "kp_multiply"), ("+", "kp_add"), ("-", "kp_subtract"), (".", "kp_decimal"),
   ("/", "kp_divide"),
   ("enter", "kp_enter"), ("backspace", "backspace"), ("escape", "escape")]

/-- `strings.ToLower`, modelled character-wise (the key table only contains
ASCII, for which Go's and Lean's lowercasing agree). -/
def goToLower (s : String) : String := ⟨s.data.map Char.toLower⟩

/-- `pressKeyWithRobotGo`, returning the key name handed to
`robotgo.KeyTap`; the Go function then returns nil unconditionally. -/
def pressKeyWithRobotGo (key : String) : String :=
  match keyMap.lookup (goToLower key) with
  | some m => m
  | none => key

/-- `keySimulator.PressKey`: dispatch on `runtime.GOOS`; both supported
branches delegate to `pressKeyWithRobotGo` (which cannot fail), every other
OS yields the error. `Except.ok` carries the tapped key name. -/
def pressKey (goos key : String) : Except String String :=
  if goos = "linux" then Except.ok (pressKeyWithRobotGo key)
  else if goos = "windows" then Except.ok (pressKeyWithRobotGo key)
  else Except.error ("unsupported operating system: " ++ goos)

/-- The boolean sink (`PressKey(k) == nil`) induced by the simulator on a
given OS, as wired up by `SetInputSimulator` in main. -/
def simulatorSink (goos : String) (k : String) : Bool :=
  match pressKey goos k with
  | Except.ok _ => true
  | Except.error _ => false

/-! ## Client reconnection state machine (static/script.js) -/

/-- `this.maxReconnectAttempts`. -/
def maxReconnectAttempts : Nat := 5

/-- `this.reconnectDelay`, milliseconds. -/
def reconnectDelay : Nat := 2000

/-- The fields of `NumpadKeyboard` that drive reconnection decisions. -/
structure ClientState where
  connected : Bool
  reconnectAttempts : Nat
  wasReplaced : Bool
deriving DecidableEq

/-- What the close handler schedules: nothing, a retry via `setTimeout`
after the given delay, or the terminal "Connection failed" status that asks
the user to refresh the page. -/
inductive CloseAction where
  | noReconnect
  | retryAfter (ms : Nat)
  | connectionFailed
deriving DecidableEq

/-- `attemptReconnect` (script.js lines 165-177). -/
def attemptReconnect (st : ClientState) : ClientState × CloseAction :=
  if st.reconnectAttempts < maxReconnectAttempts then
    ({ st with reconnectAttempts := st.reconnectAttempts + 1 },
      CloseAction.retryAfter reconnectDelay)
  else (st, CloseAction.connectionFailed)

/-- The `ws.onclose` handler (script.js lines 106-115). -/
def onClose (st : ClientState) : ClientState × CloseAction :=
  let st1 : ClientState := { st with connected := false }
  if st1.wasReplaced then ({ st1 with wasReplaced := false }, CloseAction.noReconnect)
  else attemptReconnect st1

/-- The `ws.onopen` handler (script.js lines 94-100). -/
def onOpen (st : ClientState) : ClientState :=
  { st with connected := true, reconnectAttempts := 0 }

/-- `handleWebSocketMessage` (script.js lines 130-150), restricted to its
effect on the reconnection state: only a "disconnected" status with reason
"Another device connected" sets the `wasReplaced` flag. -/
def onMessage (st : ClientState) (m : Msg) : ClientState :=
  match m with
  | Msg.status st2 r =>
    if st2 = "disconnected" ∧ r = some "Another device connected" then
      { st with wasReplaced := true }
    else st
  | _ => st

/-- The client's state and the scheduled actions across `n` consecutive
close events (no intervening successful open). -/
def closeRun : Nat → ClientState → ClientState × List CloseAction
  | 0, st => (st, [])
  | n + 1, st =>
    let p := onClose st
    let q := closeRun n p.1
    (q.1, p.2 :: q.2)

/-- Number of reconnection attempts scheduled in a list of close-handler
actions. -/
def countRetries : List CloseAction → Nat
  | [] => 0
  | CloseAction.retryAfter _ :: l => countRetries l + 1
  | CloseAction.noReconnect :: l => countRetries l
  | CloseAction.connectionFailed :: l => countRetries l

/-! ## Helper lemmas -/

lemma not_mem_filter_bne_self (l : List Nat) (c : Nat) :
    c ∉ l.filter (fun x => x != c) := by
  simp [List.mem_filter]

lemma mem_filter_bne_iff {l : List Nat} {c d : Nat} (h : d ≠ c) :
    d ∈ l.filter (fun x => x != c) ↔ d ∈ l := by
  simp [List.mem_filter, h]

lemma trySend_queueClosed (c : Conn) (m : Msg) :
    (trySend c m).1.queueClosed = c.queueClosed := by
  unfold trySend; split <;> rfl

lemma trySend_closeCount (c : Conn) (m : Msg) :
    (trySend c m).1.closeCount = c.closeCount := by
  unfold trySend; split <;> rfl

lemma broadcastOne_store_ne (m : Msg) (s : HubState) {c d : Nat} (h : d ≠ c) :
    (broadcastOne m s c).store d = s.store d := by
  unfold broadcastOne; split <;> simp [Function.update_noteq h]

lemma broadcastOne_mem_iff (m : Msg) (s : HubState) {c d : Nat} (h : d ≠ c) :
    d ∈ (broadcastOne m s c).members ↔ d ∈ s.members := by
  unfold broadcastOne; split
  · exact Iff.rfl
  · exact mem_filter_bne_iff h

lemma broadcastOne_members_length (m : Msg) (s : HubState) (c : Nat) :
    (broadcastOne m s c).members.length ≤ s.members.length := by
  unfold broadcastOne; split
  · exact le_rfl
  · exact List.length_filter_le _ _

lemma foldl_broadcastOne_untouched (m : Msg) :
    ∀ (l : List Nat) (s : HubState) (c : Nat), c ∉ l →
      (l.foldl (broadcastOne m) s).store c = s.store c ∧
        (c ∈ (l.foldl (broadcastOne m) s).members ↔ c ∈ s.members) := by
  intro l
  induction l with
  | nil => intro s c _; exact ⟨rfl, Iff.rfl⟩
  | cons e l ih =>
    intro s c hc
    have hce : c ≠ e := fun h => hc (h ▸ List.mem_cons_self e l)
    have hcl : c ∉ l := fun h => hc (List.mem_cons_of_mem e h)
    simp only [List.foldl_cons]
    obtain ⟨h1, h2⟩ := ih (broadcastOne m s e) c hcl
    exact ⟨h1.trans (broadcastOne_store_ne m s hce),
      h2.trans (broadcastOne_mem_iff m s hce)⟩

lemma foldl_broadcastOne_length (m : Msg) :
    ∀ (l : List Nat) (s : HubState),
      (l.foldl (broadcastOne m) s).members.length ≤ s.members.length := by
  intro l
  induction l with
  | nil => intro s; exact le_rfl
  | cons e l ih =>
    intro s
    simp only [List.foldl_cons]
    exact (ih (broadcastOne m s e)).trans (broadcastOne_members_length m s e)

/-- Splitting a nodup list at a member: the member occurs exactly once. -/
lemma nodup_split {l : List Nat} {c : Nat} (hnd : l.Nodup) (hc : c ∈ l) :
    ∃ l₁ l₂, l = l₁ ++ c :: l₂ ∧ c ∉ l₁ ∧ c ∉ l₂ := by
  obtain ⟨l₁, l₂, rfl⟩ := List.append_of_mem hc
  refine ⟨l₁, l₂, rfl, ?_, ?_⟩
  · intro h
    exact (List.disjoint_of_nodup_append hnd) h (List.mem_cons_self c l₂)
  · exact (List.nodup_cons.mp (hnd.of_append_right)).1

/-- The effect of one broadcast event on a given member `c`: decided by the
room left in `c`'s channel; the other members' iterations do not touch `c`. -/
lemma hubBroadcast_member (m : Msg) (s : HubState) (c : Nat)
    (hnd : s.members.Nodup) (hc : c ∈ s.members) :
    ((s.store c).queue.length < sendCap →
      (hubBroadcast s m).store c = { s.store c with queue := (s.store c).queue ++ [m] } ∧
        c ∈ (hubBroadcast s m).members) ∧
    (¬ (s.store c).queue.length < sendCap →
      (hubBroadcast s m).store c = (s.store c).closeQueue ∧
        c ∉ (hubBroadcast s m).members) := by
  obtain ⟨l₁, l₂, hsplit, h1, h2⟩ := nodup_split hnd hc
  unfold hubBroadcast
  rw [hsplit, List.foldl_append, List.foldl_cons]
  set s1 := l₁.foldl (broadcastOne m) s with hs1
  obtain ⟨hst1, hmem1⟩ := foldl_broadcastOne_untouched m l₁ s c h1
  obtain ⟨hst2, hmem2⟩ := foldl_broadcastOne_untouched m l₂ (broadcastOne m s1 c) c h2
  rw [← hs1] at hst1 hmem1
  constructor
  · intro hroom
    have hcond : (s1.store c).queue.length < sendCap := by rw [hst1]; exact hroom
    constructor
    · rw [hst2]
      unfold broadcastOne
      rw [if_pos hcond]
      simp [Function.update_same, hst1]
    · rw [hmem2]
      unfold broadcastOne
      rw [if_pos hcond]
      exact hmem1.mpr hc
  · intro hfull
    have hcond : ¬ (s1.store c).queue.length < sendCap := by rw [hst1]; exact hfull
    constructor
    · rw [hst2]
      unfold broadcastOne
      rw [if_neg hcond]
      simp [Function.update_same, hst1]
    · rw [hmem2]
      unfold broadcastOne
      rw [if_neg hcond]
      exact not_mem_filter_bne_self _ _

lemma shutdownOne_store_ne (s : HubState) {c d : Nat} (h : d ≠ c) :
    (shutdownOne s c).store d = s.store d := by
  simp [shutdownOne, Function.update_noteq h]

lemma shutdownOne_mem_iff (s : HubState) {c d : Nat} (h : d ≠ c) :
    d ∈ (shutdownOne s c).members ↔ d ∈ s.members :=
  mem_filter_bne_iff h

lemma foldl_shutdownOne_untouched :
    ∀ (l : List Nat) (s : HubState) (c : Nat), c ∉ l →
      (l.foldl shutdownOne s).store c = s.store c := by
  intro l
  induction l with
  | nil => intro s c _; rfl
  | cons e l ih =>
    intro s c hc
    have hce : c ≠ e := fun h => hc (h ▸ List.mem_cons_self e l)
    have hcl : c ∉ l := fun h => hc (List.mem_cons_of_mem e h)
    simp only [List.foldl_cons]
    exact (ih (shutdownOne s e) c hcl).trans (shutdownOne_store_ne s hce)

lemma foldl_shutdownOne_members :
    ∀ (l : List Nat) (s : HubState), (∀ x ∈ s.members, x ∈ l) →
      (l.foldl shutdownOne s).members = [] := by
  intro l
  induction l with
  | nil =>
    intro s h
    exact List.eq_nil_iff_forall_not_mem.mpr (fun a ha => by simpa using h a ha)
  | cons c l ih =>
    intro s h
    simp only [List.foldl_cons]
    apply ih
    intro x hx
    rw [shutdownOne] at hx
    simp only [List.mem_filter, bne_iff_ne, decide_eq_true_eq] at hx
    rcases List.mem_cons.mp (h x hx.1) with hxc | hxl
    · exact absurd hxc hx.2
    · exact hxl

/-- The per-member effect of `Shutdown`. -/
lemma hubShutdown_member (s : HubState) (c : Nat)
    (hnd : s.members.Nodup) (hc : c ∈ s.members) :
    (hubShutdown s).store c = (s.store c).closeQueue.closeTransport := by
  obtain ⟨l₁, l₂, hsplit, h1, h2⟩ := nodup_split hnd hc
  unfold hubShutdown
  rw [hsplit, List.foldl_append, List.foldl_cons]
  set s1 := l₁.foldl shutdownOne s with hs1
  have hst1 : s1.store c = s.store c := foldl_shutdownOne_untouched l₁ s c h1
  have hst2 := foldl_shutdownOne_untouched l₂ (shutdownOne s1 c) c h2
  rw [hst2]
  simp [shutdownOne, Function.update_same, hst1]

lemma hubShutdown_members (s : HubState) : (hubShutdown s).members = [] :=
  foldl_shutdownOne_members s.members s (fun _ hx => hx)

lemma hubRegister_members (s : HubState) (c : Nat) :
    (hubRegister s c).state.members = s.members ++ [c] := by
  unfold hubRegister
  split
  · split <;> rfl
  · rfl

lemma hubRegister_store_new (s : HubState) (c : Nat) :
    (hubRegister s c).state.store c = { Conn.fresh with queue := [connectedMsg] } := by
  unfold hubRegister
  split
  · split <;> simp [Function.update_same]
  · simp [Function.update_same]

lemma hubRegister_store_flags (s : HubState) {c d : Nat} (hdc : d ≠ c) :
    ((hubRegister s c).state.store d).queueClosed = (s.store d).queueClosed ∧
      ((hubRegister s c).state.store d).closeCount = (s.store d).closeCount := by
  unfold hubRegister
  split
  · split
    case _ e _ =>
      by_cases hde : d = e
      · subst hde
        simp [Function.update_noteq hdc, Function.update_same, Conn.closeTransport,
          trySend_queueClosed, trySend_closeCount]
      · simp [Function.update_noteq hdc, Function.update_noteq hde]
    case _ => simp [Function.update_noteq hdc]
  · simp [Function.update_noteq hdc]

lemma hubInvariant_initial : hubInvariant initialState := by
  intro c hc
  simp [initialState] at hc

lemma broadcastOne_invariant (m : Msg) (s : HubState) (c : Nat)
    (h : hubInvariant s) : hubInvariant (broadcastOne m s c) := by
  intro d hd
  by_cases hdc : d = c
  · subst hdc
    unfold broadcastOne at hd ⊢
    by_cases hroom : (s.store d).queue.length < sendCap
    · rw [if_pos hroom] at hd ⊢
      simp only [Function.update_same]
      exact ⟨(h d hd).1, (h d hd).2⟩
    · rw [if_neg hroom] at hd
      exact absurd hd (not_mem_filter_bne_self _ _)
  · rw [broadcastOne_store_ne m s hdc]
    exact h d ((broadcastOne_mem_iff m s hdc).mp hd)

lemma foldl_broadcastOne_invariant (m : Msg) :
    ∀ (l : List Nat) (s : HubState), hubInvariant s →
      hubInvariant (l.foldl (broadcastOne m) s) := by
  intro l
  induction l with
  | nil => intro s h; exact h
  | cons c l ih => intro s h; exact ih _ (broadcastOne_invariant m s c h)

/-- Every hub event preserves the open-channel invariant: connections still
in the map never have a closed `send` channel. -/
lemma hubStep_invariant (s : HubState) (e : HubEvent) (h : hubInvariant s) :
    hubInvariant (hubStep s e) := by
  cases e with
  | register c =>
    intro d hd
    simp only [hubStep] at hd ⊢
    rw [hubRegister_members] at hd
    rcases List.mem_append.mp hd with hds | hdc
    · by_cases hdc2 : d = c
      · subst hdc2
        rw [hubRegister_store_new]
        exact ⟨rfl, rfl⟩
      · obtain ⟨h1, h2⟩ := hubRegister_store_flags s hdc2
        rw [h1, h2]
        exact h d hds
    · have : d = c := by simpa using hdc
      subst this
      rw [hubRegister_store_new]
      exact ⟨rfl, rfl⟩
  | unregister c =>
    intro d hd
    simp only [hubStep] at hd ⊢
    unfold hubUnregister at hd ⊢
    split at hd
    case isTrue hmem =>
      simp only [List.mem_filter, bne_iff_ne, decide_eq_true_eq] at hd
      rw [if_pos hmem]
      dsimp only
      rw [Function.update_noteq hd.2]
      exact h d hd.1
    case isFalse hmem =>
      rw [if_neg hmem]
      exact h d hd
  | broadcast m =>
    exact foldl_broadcastOne_invariant m s.members s h

/-- The invariant holds in every state the hub can reach. -/
lemma hubRun_invariant :
    ∀ (es : List HubEvent) (s : HubState), hubInvariant s →
      hubInvariant (hubRun es s) := by
  intro es
  induction es with
  | nil => intro s h; exact h
  | cons e es ih => intro s h; exact ih _ (hubStep_invariant s e h)

/-- Bounded retry: across `n` consecutive closes with the replaced flag
clear, the client schedules exactly `min n (max - attempts)` retries. -/
lemma closeRun_retry_count :
    ∀ (n : Nat) (st : ClientState), st.wasReplaced = false →
      countRetries (closeRun n st).2
        = min n (maxReconnectAttempts - st.reconnectAttempts) := by
  intro n
  induction n with
  | zero => intro st h; simp [closeRun, countRetries]
  | succ n ih =>
    intro st h
    by_cases hlt : st.reconnectAttempts < maxReconnectAttempts
    · have hstep : onClose st
          = (⟨false, st.reconnectAttempts + 1, st.wasReplaced⟩,
             CloseAction.retryAfter reconnectDelay) := by
        simp [onClose, attemptReconnect, h, hlt]
      simp only [closeRun, hstep]
      rw [countRetries, ih _ (by simp [h])]
      simp only [maxReconnectAttempts] at hlt ⊢
      omega
    · have hstep : onClose st
          = (⟨false, st.reconnectAttempts, st.wasReplaced⟩,
             CloseAction.connectionFailed) := by
        simp [onClose, attemptReconnect, h, hlt]
      simp only [closeRun, hstep]
      rw [countRetries, ih _ (by simp [h])]
      simp only [maxReconnectAttempts] at hlt ⊢
      omega

/-! ## Claim theorems -/

/-- C1 counterexample: the claim says the connections map holds at most one
record immediately after every hub event, but after two register events it
holds both records — the register case of `Run` closes the incumbent's
transport without deleting it from the map. -/
theorem c1_counterexample :
    ¬ (hubRun [HubEvent.register 0, HubEvent.register 1] initialState).members.length ≤ 1 ∧
      (hubRun [HubEvent.register 0, HubEvent.register 1] initialState).members = [0, 1] := by
  constructor <;> decide

/-- C1 (amended): unregister and broadcast events never grow the connections
map, while a register event adds the new record without removing the
incumbent — the incumbent's transport is closed but it stays in the map, so
immediately after a register processed with an incumbent present the map
holds two records; the at-most-one bound is restored once the evicted
incumbent's unregister event is processed. -/
theorem c1_amended_hub_set_growth (s : HubState) (c : Nat) (m : Msg) :
    (hubStep s (HubEvent.unregister c)).members.length ≤ s.members.length ∧
    (hubStep s (HubEvent.broadcast m)).members.length ≤ s.members.length ∧
    (hubStep s (HubEvent.register c)).members.length = s.members.length + 1 ∧
    (∀ d ∈ s.members, d ∈ (hubStep s (HubEvent.register c)).members) ∧
    (∀ e, s.members = [e] → e ≠ c →
      ((hubStep s (HubEvent.register c)).store e).transportClosed = true ∧
      (hubRun [HubEvent.register c, HubEvent.unregister e] s).members = [c]) := by
  refine ⟨?_, ?_, ?_, ?_, ?_⟩
  · simp only [hubStep]
    unfold hubUnregister
    split
    · exact List.length_filter_le _ _
    · exact le_rfl
  · exact foldl_broadcastOne_length m s.members s
  · simp only [hubStep]
    rw [hubRegister_members]
    simp
  · intro d hd
    simp only [hubStep]
    rw [hubRegister_members]
    exact List.mem_append_left _ hd
  · intro e hm hec
    have hmem2 : (hubStep s (HubEvent.register c)).members = [e, c] := by
      simp only [hubStep]
      rw [hubRegister_members, hm]
      rfl
    constructor
    · simp only [hubStep]
      unfold hubRegister getExistingConnection
      rw [hm]
      simp [Function.update_noteq hec, Function.update_same, Conn.closeTransport]
    · show (hubUnregister (hubStep s (HubEvent.register c)) e).members = [c]
      unfold hubUnregister
      rw [hmem2]
      have hce : (c != e) = true := bne_iff_ne.mpr (Ne.symm hec)
      simp [List.filter, hce]

/-- C1 witness: a concrete second client admitted after the evicted first
client's unregister leaves exactly the second client in the map. -/
theorem c1_witness :
    (hubRun [HubEvent.register 7, HubEvent.unregister 3]
      (hubRun [HubEvent.register 3] initialState)).members = [7] := by
  have h := c1_amended_hub_set_growth (hubRun [HubEvent.register 3] initialState) 7 (Msg.raw "b")
  exact (h.2.2.2.2 3 (by decide) (by decide)).2

/-- C2 counterexample: after client 1 registers while client 0 is active the
map is `[0, 1]`, not exactly the new record `[1]` as the claim states — the
evicted incumbent is still a member. -/
theorem c2_counterexample :
    (hubRun [HubEvent.register 0, HubEvent.register 1] initialState).members ≠ [1] ∧
      0 ∈ (hubRun [HubEvent.register 0, HubEvent.register 1] initialState).members := by
  constructor <;> decide

/-- C2 (amended): with exactly one incumbent, a register event attempts the
non-blocking eviction payload (skipped when the incumbent's channel is full,
in which case no grace sleep happens either; the 100ms sleep runs only when
the payload was accepted), forcibly closes the incumbent's transport, adds
the new record and delivers the welcome payload to it; afterwards the map
holds exactly the incumbent and the new record — the incumbent leaves the
map only when its own unregister event is processed. -/
theorem c2_amended_register_eviction (s : HubState) (e c : Nat)
    (hm : s.members = [e]) (hec : e ≠ c) :
    ((s.store e).queue.length < sendCap →
      ((hubRegister s c).state.store e).queue = (s.store e).queue ++ [evictMsg] ∧
        (hubRegister s c).sleptMs = 100) ∧
    (¬ (s.store e).queue.length < sendCap →
      ((hubRegister s c).state.store e).queue = (s.store e).queue ∧
        (hubRegister s c).sleptMs = 0) ∧
    ((hubRegister s c).state.store e).transportClosed = true ∧
    ((hubRegister s c).state.store c).queue = [connectedMsg] ∧
    (hubRegister s c).state.members = [e, c] := by
  have hex : getExistingConnection s = some e := by
    unfold getExistingConnection
    rw [hm]
    rfl
  refine ⟨?_, ?_, ?_, ?_, ?_⟩
  · intro hroom
    constructor
    · unfold hubRegister
      rw [hex, hm]
      simp [trySend, hroom, Function.update_noteq hec, Function.update_same,
        Conn.closeTransport]
    · unfold hubRegister
      rw [hex, hm]
      simp [trySend, hroom]
  · intro hfull
    constructor
    · unfold hubRegister
      rw [hex, hm]
      simp [trySend, hfull, Function.update_noteq hec, Function.update_same,
        Conn.closeTransport]
    · unfold hubRegister
      rw [hex, hm]
      simp [trySend, hfull]
  · unfold hubRegister
    rw [hex, hm]
    simp [Function.update_noteq hec, Function.update_same, Conn.closeTransport]
  · rw [hubRegister_store_new]
  · rw [hubRegister_members, hm]
    rfl

set_option maxRecDepth 4000 in
/-- C2 witness: client 3 active with a near-empty channel, client 7 admitted:
client 3 receives the eviction payload after its welcome payload, the grace
sleep runs, 3's transport is closed, 7 holds the welcome payload, and the
map is `[3, 7]`. -/
theorem c2_witness :
    ((hubRegister (hubRun [HubEvent.register 3] initialState) 7).state.store 3).queue
        = [connectedMsg, evictMsg] ∧
    (hubRegister (hubRun [HubEvent.register 3] initialState) 7).sleptMs = 100 ∧
    ((hubRegister (hubRun [HubEvent.register 3] initialState) 7).state.store 3).transportClosed
        = true ∧
    ((hubRegister (hubRun [HubEvent.register 3] initialState) 7).state.store 7).queue
        = [connectedMsg] ∧
    (hubRegister (hubRun [HubEvent.register 3] initialState) 7).state.members = [3, 7] := by
  have h := c2_amended_register_eviction (hubRun [HubEvent.register 3] initialState) 3 7
    (by decide) (by decide)
  obtain ⟨h1, h2⟩ := h.1 (by decide)
  refine ⟨?_, h2, h.2.2.1, h.2.2.2.1, h.2.2.2.2⟩
  rw [h1]
  decide

set_option maxRecDepth 8000 in
/-- C3 counterexample: with the incumbent's channel full (256 pending
payloads) and a failing sink, `readPump`'s error delivery
`connection.send <- errorMsg` blocks — it is a plain channel send, not the
non-blocking drop the claim describes (`readPumpStepSpec`, which continues
with the payload dropped). -/
theorem c3_counterexample :
    (readPumpStep true (fun _ => false)
        ⟨List.replicate 256 (Msg.raw "m"), []⟩ (Frame.decoded "x" "key")).blocked = true ∧
    (readPumpStepSpec true (fun _ => false)
        ⟨List.replicate 256 (Msg.raw "m"), []⟩ (Frame.decoded "x" "key")).blocked = false ∧
    readPumpStep true (fun _ => false)
        ⟨List.replicate 256 (Msg.raw "m"), []⟩ (Frame.decoded "x" "key")
      ≠ readPumpStepSpec true (fun _ => false)
        ⟨List.replicate 256 (Msg.raw "m"), []⟩ (Frame.decoded "x" "key") := by
  refine ⟨?_, ?_, ?_⟩ <;> decide

/-- C3 (amended): when the sink fails for key `k`, the read pump delivers
the error payload `Failed to press key: k` to the record's channel with a
blocking send: with room in the channel the payload is enqueued and the
pump continues with the next frame (session open); with a full channel the
pump blocks in the send — it neither drops the payload nor reaches
subsequent frames until space frees. -/
theorem c3_amended_blocking_error_enqueue (sink : String → Bool) (st : PumpState)
    (k : String) (fs : List Frame) (hsink : sink k = false) :
    (st.queue.length < sendCap →
      readPumpStep true sink st (Frame.decoded k "key")
          = ⟨⟨st.queue ++ [keyErrMsg k], st.presses ++ [k]⟩, false⟩ ∧
      readPumpRun true sink st (Frame.decoded k "key" :: fs)
          = readPumpRun true sink ⟨st.queue ++ [keyErrMsg k], st.presses ++ [k]⟩ fs) ∧
    (¬ st.queue.length < sendCap →
      readPumpStep true sink st (Frame.decoded k "key")
          = ⟨⟨st.queue, st.presses ++ [k]⟩, true⟩ ∧
      readPumpRun true sink st (Frame.decoded k "key" :: fs) = none) := by
  constructor
  · intro hroom
    have hstep : readPumpStep true sink st (Frame.decoded k "key")
        = ⟨⟨st.queue ++ [keyErrMsg k], st.presses ++ [k]⟩, false⟩ := by
      simp [readPumpStep, hsink, hroom]
    exact ⟨hstep, by simp [readPumpRun, hstep]⟩
  · intro hfull
    have hstep : readPumpStep true sink st (Frame.decoded k "key")
        = ⟨⟨st.queue, st.presses ++ [k]⟩, true⟩ := by
      simp [readPumpStep, hsink, hfull]
    exact ⟨hstep, by simp [readPumpRun, hstep]⟩

/-- C3 witness: a failing sink on key "x" with an empty channel enqueues
exactly the error payload and the pump is not blocked. -/
theorem c3_witness :
    readPumpStep true (fun _ => false) ⟨[], []⟩ (Frame.decoded "x" "key")
      = ⟨⟨[keyErrMsg "x"], ["x"]⟩, false⟩ ∧ (0 : Nat) < sendCap := by
  have h := (c3_amended_blocking_error_enqueue (fun _ => false) ⟨[], []⟩ "x" [] rfl).1
    (by decide)
  exact ⟨by simpa using h.1, by decide⟩

/-- C4: unregister is idempotent — a second unregister for the same record
changes nothing (the membership guard fails), an unregister for a record not
in the map changes nothing, and in particular the record's channel is not
closed a second time. -/
theorem c4_unregister_idempotent (s : HubState) (c : Nat) :
    hubStep (hubStep s (HubEvent.unregister c)) (HubEvent.unregister c)
        = hubStep s (HubEvent.unregister c) ∧
    (c ∉ s.members → hubStep s (HubEvent.unregister c) = s) ∧
    ((hubStep (hubStep s (HubEvent.unregister c)) (HubEvent.unregister c)).store c).closeCount
        = ((hubStep s (HubEvent.unregister c)).store c).closeCount := by
  have hnoop : ∀ t : HubState, c ∉ t.members → hubUnregister t c = t := by
    intro t ht
    unfold hubUnregister
    rw [if_neg ht]
  have hnotmem : c ∉ (hubUnregister s c).members := by
    unfold hubUnregister
    split
    · exact not_mem_filter_bne_self _ _
    · assumption
  have hidem : hubStep (hubStep s (HubEvent.unregister c)) (HubEvent.unregister c)
      = hubStep s (HubEvent.unregister c) := hnoop _ hnotmem
  exact ⟨hidem, fun hc => hnoop s hc, by rw [hidem]⟩

/-- C4 witness: unregistering a record that is not in the map leaves the hub
state untouched. -/
theorem c4_witness :
    hubStep initialState (HubEvent.unregister 0) = initialState ∧
      (0 : Nat) ∉ initialState.members :=
  ⟨(c4_unregister_idempotent initialState 0).2.1 (by decide), by decide⟩

/-- C5: for every member during a broadcast, a channel with room receives
the payload by non-blocking send and the member stays; a full channel gets
the member's channel closed (exactly once, from never-closed to close count
one) and the member deleted from the map.  The hub step is a total function
of the state — it never waits on a member's channel. -/
theorem c5_broadcast_backpressure (s : HubState) (m : Msg) (c : Nat)
    (hinv : hubInvariant s) (hnd : s.members.Nodup) (hc : c ∈ s.members) :
    ((s.store c).queue.length < sendCap →
      c ∈ (hubStep s (HubEvent.broadcast m)).members ∧
      ((hubStep s (HubEvent.broadcast m)).store c).queue = (s.store c).queue ++ [m] ∧
      ((hubStep s (HubEvent.broadcast m)).store c).queueClosed = false ∧
      ((hubStep s (HubEvent.broadcast m)).store c).closeCount = 0) ∧
    (¬ (s.store c).queue.length < sendCap →
      c ∉ (hubStep s (HubEvent.broadcast m)).members ∧
      ((hubStep s (HubEvent.broadcast m)).store c).queueClosed = true ∧
      ((hubStep s (HubEvent.broadcast m)).store c).closeCount = 1) := by
  obtain ⟨hroomcase, hfullcase⟩ := hubBroadcast_member m s c hnd hc
  obtain ⟨hcl, hcc⟩ := hinv c hc
  constructor
  · intro hroom
    obtain ⟨hst, hmem⟩ := hroomcase hroom
    exact ⟨hmem, by simp [hubStep, hst], by simp [hubStep, hst, hcl],
      by simp [hubStep, hst, hcc]⟩
  · intro hfull
    obtain ⟨hst, hmem⟩ := hfullcase hfull
    exact ⟨hmem, by simp [hubStep, hst, Conn.closeQueue],
      by simp [hubStep, hst, Conn.closeQueue, hcc]⟩

/-- C5 witness: broadcasting to the single fresh member 3 (channel has
room) appends the payload after its welcome payload and keeps it in the
map. -/
theorem c5_witness :
    (3 : Nat) ∈ (hubStep (hubRun [HubEvent.register 3] initialState)
        (HubEvent.broadcast (Msg.raw "b"))).members ∧
    ((hubStep (hubRun [HubEvent.register 3] initialState)
        (HubEvent.broadcast (Msg.raw "b"))).store 3).queue
      = [connectedMsg, Msg.raw "b"] := by
  have h := c5_broadcast_backpressure (hubRun [HubEvent.register 3] initialState)
    (Msg.raw "b") 3 (by unfold hubInvariant; decide) (by decide) (by decide)
  have h1 := h.1 (by decide)
  refine ⟨h1.1, ?_⟩
  rw [h1.2.1]
  decide

/-- C6: a frame that fails to decode leaves the pump state untouched and
the loop continues: running the pump on the malformed frame followed by any
frames equals running it on those frames alone, and a subsequent well-formed
key frame is still processed (its key reaches the sink). -/
theorem c6_malformed_frame_continues (hasSink : Bool) (sink : String → Bool)
    (st : PumpState) (fs : List Frame) (k : String) (hk : sink k = true) :
    readPumpStep hasSink sink st Frame.malformed = ⟨st, false⟩ ∧
    readPumpRun hasSink sink st (Frame.malformed :: fs)
        = readPumpRun hasSink sink st fs ∧
    readPumpRun true sink st [Frame.malformed, Frame.decoded k "key"]
        = some ⟨st.queue, st.presses ++ [k]⟩ := by
  refine ⟨rfl, ?_, ?_⟩
  · simp [readPumpRun, readPumpStep]
  · simp [readPumpRun, readPumpStep, hk]

/-- C6 witness: a malformed frame then a well-formed "5" key frame — the
pump survives and the sink sees "5". -/
theorem c6_witness :
    readPumpRun true (fun _ => true) ⟨[], []⟩
        [Frame.malformed, Frame.decoded "5" "key"] = some ⟨[], ["5"]⟩ := by
  have h := c6_malformed_frame_continues true (fun _ => true) ⟨[], []⟩ [] "5" rfl
  simpa using h.2.2

/-- C7: a decoded frame of type "key" processed with a sink installed
invokes the sink exactly once, with exactly the frame's key — whether the
press succeeds or fails, exactly one invocation with `k` is appended to the
invocation trace. -/
theorem c7_key_press_invoked_once (sink : String → Bool) (st : PumpState)
    (k : String) :
    (readPumpStep true sink st (Frame.decoded k "key")).state.presses
        = st.presses ++ [k] := by
  simp only [readPumpStep]
  rw [if_pos (⟨trivial, trivial⟩ : True ∧ True)]
  split
  · rfl
  · split <;> rfl

/-- C8: the reconnection machine never schedules a retry on a close that
follows the eviction payload (the replaced flag, set exactly by that
payload, suppresses it and is cleared); otherwise it schedules a retry
after the fixed 2000ms delay while fewer than 5 attempts were made,
increments the counter, and settles in the terminal connection-failed state
once 5 attempts are exhausted — across any run of closes at most
`min n (5 - attempts)` retries happen. -/
theorem c8_reconnect_state_machine (st : ClientState) (n : Nat) :
    (st.wasReplaced = true →
      onClose st = (⟨false, st.reconnectAttempts, false⟩, CloseAction.noReconnect)) ∧
    (st.wasReplaced = false → st.reconnectAttempts < maxReconnectAttempts →
      onClose st = (⟨false, st.reconnectAttempts + 1, st.wasReplaced⟩,
        CloseAction.retryAfter reconnectDelay)) ∧
    (st.wasReplaced = false → maxReconnectAttempts ≤ st.reconnectAttempts →
      onClose st = (⟨false, st.reconnectAttempts, st.wasReplaced⟩,
        CloseAction.connectionFailed)) ∧
    (onMessage st evictMsg).wasReplaced = true ∧
    (st.wasReplaced = false →
      countRetries (closeRun n st).2
        = min n (maxReconnectAttempts - st.reconnectAttempts)) := by
  refine ⟨?_, ?_, ?_, ?_, fun h => closeRun_retry_count n st h⟩
  · intro h
    simp [onClose, h]
  · intro h1 h2
    simp [onClose, attemptReconnect, h1, h2]
  · intro h1 h2
    simp [onClose, attemptReconnect, h1, Nat.not_lt.mpr h2]
  · simp [onMessage, evictMsg]

/-- C8 witness: an evicted client's close schedules nothing; a fresh
client facing nine failed connects schedules exactly five retries. -/
theorem c8_witness :
    onClose ⟨false, 2, true⟩ = (⟨false, 2, false⟩, CloseAction.noReconnect) ∧
    countRetries (closeRun 9 ⟨true, 0, false⟩).2 = 5 := by
  have h1 := c8_reconnect_state_machine ⟨false, 2, true⟩ 0
  have h2 := c8_reconnect_state_machine ⟨true, 0, false⟩ 9
  refine ⟨by simpa using h1.1 rfl, ?_⟩
  rw [h2.2.2.2.2 rfl]
  decide

/-- C9: `Shutdown` closes every member's channel (exactly once) and
transport and empties the map; a write pump then receives the closed-channel
indication once the channel drains and terminates, and a read pump's next
read on the closed transport fails, making it leave its loop. -/
theorem c9_shutdown_closes_all (s : HubState)
    (hinv : hubInvariant s) (hnd : s.members.Nodup) :
    (hubShutdown s).members = [] ∧
    (∀ c ∈ s.members,
      ((hubShutdown s).store c).queueClosed = true ∧
      ((hubShutdown s).store c).closeCount = 1 ∧
      ((hubShutdown s).store c).transportClosed = true) ∧
    chanRecv [] true = some (none, []) ∧
    writePumpOnRecv true none = PumpOutcome.terminated ∧
    (∀ f, readMessage true f = none) := by
  refine ⟨hubShutdown_members s, ?_, rfl, rfl, fun f => rfl⟩
  intro c hc
  rw [hubShutdown_member s c hnd hc]
  obtain ⟨h1, h2⟩ := hinv c hc
  simp [Conn.closeQueue, Conn.closeTransport, h2]

/-- C9 witness: shutting down with the single member 3 closes 3's channel
and transport and empties the map. -/
theorem c9_witness :
    (hubShutdown (hubRun [HubEvent.register 3] initialState)).members = [] ∧
    ((hubShutdown (hubRun [HubEvent.register 3] initialState)).store 3).queueClosed = true ∧
    ((hubShutdown (hubRun [HubEvent.register 3] initialState)).store 3).transportClosed
        = true := by
  have h := c9_shutdown_closes_all (hubRun [HubEvent.register 3] initialState)
    (by unfold hubInvariant; decide) (by decide)
  obtain ⟨hm, hall, -, -, -⟩ := h
  obtain ⟨h1, h2, h3⟩ := hall 3 (by decide)
  exact ⟨hm, h1, h3⟩

/-- C10 (implicit claim): `PressKey` fails exactly on operating systems
other than linux and windows; on both supported systems it succeeds on
every input (lowercasing the key, translating digits, operators, enter,
backspace and escape through the key table, and passing any other key
through unchanged), so the read pump driven by this simulator's sink on a
supported OS never takes the error-payload branch: its channel never grows
and it never blocks. -/
theorem c10_simulator_total_on_supported_os (goos key : String)
    (st : PumpState) (f : Frame) (hg : goos ≠ "linux") (hw : goos ≠ "windows") :
    (∀ k, pressKey "linux" k = Except.ok (pressKeyWithRobotGo k)) ∧
    (∀ k, pressKey "windows" k = Except.ok (pressKeyWithRobotGo k)) ∧
    pressKey goos key = Except.error ("unsupported operating system: " ++ goos) ∧
    pressKeyWithRobotGo "5" = "kp_5" ∧
    pressKeyWithRobotGo "ENTER" = "kp_enter" ∧
    pressKeyWithRobotGo "*" = "kp_multiply" ∧
    pressKeyWithRobotGo "backspace" = "backspace" ∧
    pressKeyWithRobotGo "escape" = "escape" ∧
    pressKeyWithRobotGo "q" = "q" ∧
    simulatorSink "linux" key = true ∧
    simulatorSink "windows" key = true ∧
    (readPumpStep true (simulatorSink "linux") st f).blocked = false ∧
    (readPumpStep true (simulatorSink "linux") st f).state.queue = st.queue := by
  have hsl : ∀ k, simulatorSink "linux" k = true := by
    intro k
    simp [simulatorSink, pressKey]
  have hstep : (readPumpStep true (simulatorSink "linux") st f).blocked = false ∧
      (readPumpStep true (simulatorSink "linux") st f).state.queue = st.queue := by
    cases f with
    | malformed => exact ⟨rfl, rfl⟩
    | decoded k ty =>
      simp only [readPumpStep]
      by_cases hty : ty = "key"
      · rw [if_pos (show True ∧ ty = "key" from ⟨trivial, hty⟩), hsl k]
        exact ⟨rfl, rfl⟩
      · rw [if_neg (fun hcon => hty hcon.2)]
        exact ⟨rfl, rfl⟩
  refine ⟨fun k => by simp [pressKey], fun k => by simp [pressKey], ?_, by decide,
    by decide, by decide, by decide, by decide, by decide, hsl key,
    by simp [simulatorSink, pressKey], hstep.1, hstep.2⟩
  simp [pressKey, hg, hw]

/-- C10 witness: an unsupported OS errors, linux maps "5" to the keypad
code, and a "5" key frame driven by the linux simulator leaves the queue
empty (no error payload). -/
theorem c10_witness :
    pressKey "darwin" "5" = Except.error "unsupported operating system: darwin" ∧
    pressKey "linux" "5" = Except.ok "kp_5" ∧
    (readPumpStep true (simulatorSink "linux") ⟨[], []⟩
        (Frame.decoded "5" "key")).state.queue = ([] : List Msg) := by
  have h := c10_simulator_total_on_supported_os "darwin" "5" ⟨[], []⟩
    (Frame.decoded "5" "key") (by decide) (by decide)
  obtain ⟨hlin, -, hdar, -, -, -, -, -, -, -, -, -, hque⟩ := h
  exact ⟨hdar, hlin "5", hque⟩

end WebKeyboard

